import Mathlib

/-!
Verification of the rawmux demuxer (`libavformat/rawmuxdec.c`).

A shallow embedding of the rawmux demuxer: the probe function
(`rawmux_read_probe`), the header / stream-table decoder
(`rawmux_read_header`) and the packet reader (`rawmux_read_packet`).

The input cursor is modelled as a `List Nat` of bytes that is consumed
from the front.  The byte-level reading primitives (`avio_r8`,
`avio_rl32`, `avio_rl64`, `avio_get_str`) and the collaborators the
demuxer calls into (`av_get_packet`, the pixel-format and codec
registries, `av_image_get_buffer_size`, `av_rescale_q`,
`avpriv_set_pts_info`) are FFmpeg library code that lives outside this
file's source; they are modelled from the spec, each marked as such in
its doc comment.  The demuxer logic itself is translated line by line
from `rawmuxdec.c`.
-/

namespace Rawmux

/-- Model of `avio_r8`: read one byte from the cursor.  Modelled from the spec:
the byte-oriented input source; at end of input FFmpeg's `avio_r8`
returns 0, which we reproduce. -/
def readByte : List Nat → Nat × List Nat
  | [] => (0, [])
  | b :: rest => (b, rest)

/-- Model of `avio_rl32`: read a little-endian unsigned 32-bit integer.
Modelled from the spec: little-endian multi-byte reads supplied by the
input source. -/
def rl32 (input : List Nat) : Nat × List Nat :=
  let (b0, r0) := readByte input
  let (b1, r1) := readByte r0
  let (b2, r2) := readByte r1
  let (b3, r3) := readByte r2
  (b0 + b1 * 256 + b2 * 65536 + b3 * 16777216, r3)

/-- Model of `avio_rl64`: read a little-endian unsigned 64-bit integer.
Modelled from the spec: little-endian multi-byte reads supplied by the
input source. -/
def rl64 (input : List Nat) : Nat × List Nat :=
  let (lo, r0) := rl32 input
  let (hi, r1) := rl32 r0
  (lo + hi * 4294967296, r1)

/-- Model of `avio_get_str` over a fixed-size field: consume bytes until a NUL
byte is consumed or `field` bytes have been read; at most `field - 1`
characters are kept (one slot of the field is reserved for the
terminator).  Modelled from the spec: NUL-terminated / length-truncated
string reads, truncation is silent. -/
def avioGetStr (field : Nat) (input : List Nat) : List Nat × List Nat :=
  let rec go : Nat → List Nat → List Nat × List Nat
    | 0, rest => ([], rest)
    | _ + 1, [] => ([], [])
    | n + 1, b :: rest =>
      if b = 0 then ([], rest)
      else
        let (s, r) := go n rest
        (b :: s, r)
  let (s, r) := go field input
  (s.take (field - 1), r)

/-- Reinterpret an unsigned 32-bit value as a signed 32-bit `int`
(two's complement), as happens when `avio_rl32`'s result is stored into
the C `int size`. -/
def toInt32 (n : Nat) : Int :=
  if n < 2147483648 then (n : Int) else (n : Int) - 4294967296

/-- Reinterpret an unsigned 64-bit value as a signed 64-bit `int64_t`
(two's complement), as happens when `avio_rl64`'s result is stored into
the C `int64_t pts`. -/
def toInt64 (n : Nat) : Int :=
  if n < 9223372036854775808 then (n : Int) else (n : Int) - 18446744073709551616

/-- The magic constant `HEADER[] = { 'r','a','w','m','u','x' }`. -/
def HEADER : List Nat := [114, 97, 119, 109, 117, 120]

/-- The constant `AVPROBE_SCORE_MAX`, the maximum probe confidence. -/
def AVPROBE_SCORE_MAX : Nat := 100

/-- Model of `rawmux_read_probe`: return 0 if the buffer is shorter than the
magic or its first 6 bytes differ from the magic, otherwise the maximum
score.  The buffer is the probe prefix (`p->buf` with `p->buf_size =
buf.length`); `memcmp` over the first `sizeof(HEADER)` bytes is the
comparison of the 6-byte prefixes. -/
def rawmux_read_probe (buf : List Nat) : Nat :=
  if buf.length < HEADER.length ∨ buf.take HEADER.length ≠ HEADER then 0
  else AVPROBE_SCORE_MAX

/-- The enum `AVMediaType`, restricted to what the demuxer inspects. -/
inductive AVMediaType
  | video
  | audio
  | other
  deriving DecidableEq, Repr

/-- A decoder descriptor as returned by `avcodec_find_decoder_by_name`:
the demuxer reads its `id` and its `type`.  Modelled from the spec:
codec-name lookup returns a decoder descriptor (id, media type). -/
structure Codec where
  id : Nat
  mediaType : AVMediaType
  deriving DecidableEq, Repr

/-- The external collaborators of the stream-table decoder, passed as
injected dependencies.  Modelled from the spec: the pixel-format-name
registry (`av_get_pix_fmt`, sentinel none on failure), the minimal
image buffer size computation (`av_image_get_buffer_size` with
`align = 1`, negative result = error), the codec-name registry
(`avcodec_find_decoder_by_name`, none on failure) and the
bits-per-sample table (`av_get_bits_per_sample`). -/
structure Registries where
  pixFmt : List Nat → Option Nat
  imageBufSize : Nat → Nat → Nat → Int
  findDecoder : List Nat → Option Codec
  bitsPerSample : Nat → Nat

/-- One decoded track descriptor: the fields of `AVStream` /
`AVCodecParameters` that `rawmux_read_header` fills in.  The time base
(`tbNum`, `tbDen`) is the one installed by `avpriv_set_pts_info`. -/
inductive Track
  | video (pixFmt : Nat) (tbNum tbDen : Nat) (width height : Nat)
      (bitRate : Option Nat)
  | audio (codecId : Nat) (sampleRate : Nat) (channels : Nat)
      (bitsPerCodedSample : Nat) (blockAlign : Nat) (tbNum tbDen : Nat)
  deriving DecidableEq, Repr

/-- The error taxonomy of the header decoder and packet reader.  The C
code folds most of these into `AVERROR_INVALIDDATA`; they are kept
distinct here, one per return site, under the spec's names.
`AssertBitsPerSample` models the fatal assertion
`av_assert0(bits_per_coded_sample > 0)`. -/
inductive FormatError
  | UnsupportedVersion
  | InvalidStreamType
  | TooManyStreams
  | InvalidPixelFormat
  | UnsupportedGeometry
  | InvalidAudioCodec
  | AssertBitsPerSample
  deriving DecidableEq, Repr

/-- Model of `av_rescale_q(size, (AVRational){8,1}, (AVRational){num,den})`:
rescale a frame's bit count (`size * 8`) by the reciprocal of the time
base, rounding to the nearest integer (ties away from zero, which for
the nonnegative operands here is rounding half up).  Modelled from the
spec: `derived_bit_rate = round(frame_size_bytes * 8 * time_base.den /
time_base.num)`; the quotient is undefined when `num = 0`, hence the
`Option`. -/
def avRescaleSpec (size den num : Nat) : Option Nat :=
  if num = 0 then none
  else some ((2 * (size * 8 * den) + num) / (2 * num))

/-- The fixed codec-name lead-in `{ 'p','c','m','_' }` of the audio
branch. -/
def pcmHead : List Nat := [112, 99, 109, 95]

/-- The body of one stream-table iteration of `rawmux_read_header`,
after the terminator / type-range / stream-count checks: the
`if (t == STREAM_VIDEO) ... else if (t == STREAM_AUDIO) ...` blocks.
Reached only with `t = 1` (video) or `t = 2` (audio).  On success it
yields the completed track descriptor and the rest of the input. -/
def parseDescriptor (reg : Registries) (t : Nat) (input : List Nat) :
    Except FormatError (Track × List Nat) :=
  if t = 1 then
    let (name, r1) := avioGetStr 32 input
    match reg.pixFmt name with
    | none => .error .InvalidPixelFormat
    | some fmt =>
      let (num, r2) := rl32 r1
      let (den, r3) := rl32 r2
      let (w, r4) := rl32 r3
      let (h, r5) := rl32 r4
      let size := reg.imageBufSize fmt w h
      if size < 0 then .error .UnsupportedGeometry
      else
        let br := avRescaleSpec size.toNat den num
        .ok (.video fmt num den w h br, r5)
  else
    let (suffix, r1) := avioGetStr 28 input
    match reg.findDecoder (pcmHead ++ suffix) with
    | none => .error .InvalidAudioCodec
    | some codec =>
      if codec.mediaType ≠ .audio then .error .InvalidAudioCodec
      else
        let (sr, r2) := rl32 r1
        let (ch, r3) := readByte r2
        let bits := reg.bitsPerSample codec.id
        if bits = 0 then .error .AssertBitsPerSample
        else
          .ok (.audio codec.id sr ch bits (bits * ch / 8) 1 sr, r3)

/-- The stream-table loop of `rawmux_read_header`
(`for (enum stream t; (t = avio_r8(pb)) != STREAM_NONE;)`).

`acc` is the catalog built so far (so the next stream's `st->index` is
`acc.length`) and `budget = 256 - acc.length` counts the remaining
admissible descriptors: the C check `st->index > 255` fails exactly
when `budget = 0`.  Each successful iteration appends one descriptor
and recurses with `budget - 1`. -/
def readStreams (reg : Registries) (acc : List Track) (budget : Nat)
    (input : List Nat) : Except FormatError (List Track × List Nat) :=
  let (t, rest) := readByte input
  if t = 0 then
    .ok (acc, rest)
  else if 2 < t then
    .error .InvalidStreamType
  else
    match budget with
    | 0 => .error .TooManyStreams
    | b + 1 =>
      match parseDescriptor reg t rest with
      | .error e => .error e
      | .ok (trk, r) => readStreams reg (acc ++ [trk]) b r

/-- Model of `rawmux_read_header`: skip the 6 magic bytes, read the version
byte, reject any version other than 1, then run the stream-table loop
with an empty catalog (the first stream gets index 0, so the full
budget is 256). -/
def rawmux_read_header (reg : Registries) (input : List Nat) :
    Except FormatError (List Track × List Nat) :=
  let afterMagic := input.drop HEADER.length
  let (version, r1) := readByte afterMagic
  if version ≠ 1 then .error .UnsupportedVersion
  else readStreams reg [] 256 r1

/-- Errors of the packet reader: a short read while filling the
payload, or a negative (wrapped) size handed to `av_get_packet`. -/
inductive IOError
  | ShortRead
  | InvalidSize
  deriving DecidableEq, Repr

/-- The packet produced by `rawmux_read_packet`: the fields of
`AVPacket` it fills in. -/
structure Packet where
  stream_index : Nat
  payload : List Nat
  pts : Int
  dts : Int
  deriving DecidableEq, Repr

/-- Model of `av_get_packet(pb, pkt, size)`.  Modelled from the spec: read
exactly `size` bytes from the cursor into a freshly allocated buffer
and fail, returning no packet, if fewer than `size` bytes are
available; a negative `size` (the C `int` argument) fails the
allocation. -/
def avGetPacket (size : Int) (input : List Nat) :
    Except IOError (List Nat × List Nat) :=
  if size < 0 then .error .InvalidSize
  else if input.length < size.toNat then .error .ShortRead
  else .ok (input.take size.toNat, input.drop size.toNat)

/-- Model of `rawmux_read_packet`: read the packet header — one stream-index
byte, a little-endian u32 stored into the C `int size` (hence the
signed reinterpretation), a little-endian u64 stored into `int64_t pts`
— then the payload via `av_get_packet`; any error from it is
propagated.  On success the packet carries `pts = dts = pts` and the
stream byte, unvalidated. -/
def rawmux_read_packet (input : List Nat) :
    Except IOError (Packet × List Nat) :=
  let (stream, r1) := readByte input
  let (size32, r2) := rl32 r1
  let size : Int := toInt32 size32
  let (pts64, r3) := rl64 r2
  let pts : Int := toInt64 pts64
  match avGetPacket size r3 with
  | .error e => .error e
  | .ok (payload, r4) =>
    .ok ({ stream_index := stream, payload := payload, pts := pts, dts := pts }, r4)

/-- Little-endian 4-byte encoding of a 32-bit value, used to build
concrete packet headers and stream descriptors. -/
def le4 (n : Nat) : List Nat :=
  [n % 256, n / 256 % 256, n / 65536 % 256, n / 16777216 % 256]

/-- Little-endian 8-byte encoding of a 64-bit value. -/
def le8 (n : Nat) : List Nat :=
  le4 (n % 4294967296) ++ le4 (n / 4294967296)

/-- A concrete instantiation of the external registries, used for the
worked instances: every nonempty name resolves to pixel format 7, a
4-bytes-per-pixel format (`imageBufSize = w * h * 4`), the codec name
"pcm_s16" resolves to an audio decoder with id 42, and every codec id
has 16 bits per sample. -/
def testReg : Registries where
  pixFmt name := if name = [] then none else some 7
  imageBufSize _ w h := (w * h * 4 : Int)
  findDecoder name :=
    if name = pcmHead ++ [115, 49, 54] then some ⟨42, .audio⟩ else none
  bitsPerSample _ := 16

/-- Byte stream of one video descriptor: type byte 1, pixel-format name
"a" (NUL-terminated), time base `num/den`, width, height. -/
def vidDesc (num den w h : Nat) : List Nat :=
  [1, 97, 0] ++ le4 num ++ le4 den ++ le4 w ++ le4 h

/-- Byte stream of one audio descriptor: type byte 2, codec-name suffix
"s16" (NUL-terminated), sample rate 48000, channel count 2. -/
def audioDesc : List Nat := [2, 115, 49, 54, 0] ++ le4 48000 ++ [2]

/-- The track descriptor `audioDesc` decodes to under `testReg`:
16 bits per sample, 2 channels, block align 4, time base 1/48000. -/
def audioTrk : Track := .audio 42 48000 2 16 4 1 48000

/-- Concatenation of `n` consecutive copies of `audioDesc`. -/
def repAudio : Nat → List Nat
  | 0 => []
  | n + 1 => audioDesc ++ repAudio n

/-- The per-track postcondition established by the stream-table loop
for every descriptor it appends: a video track's bit rate is the
rescaled frame size computed from a nonnegative buffer size; an audio
track's bits-per-sample comes from the registry and is nonzero, its
block align is `bits * channels / 8` with truncating division, and its
time base is `1 / sample_rate`. -/
def GoodTrack (reg : Registries) : Track → Prop
  | .video f num den w h br =>
      0 ≤ reg.imageBufSize f w h ∧
      br = avRescaleSpec (reg.imageBufSize f w h).toNat den num
  | .audio cid sr ch bits ba tn td =>
      bits = reg.bitsPerSample cid ∧ bits ≠ 0 ∧
      ba = bits * ch / 8 ∧ tn = 1 ∧ td = sr

theorem rl32_le4 (n : Nat) (r : List Nat) (hn : n < 4294967296) :
    rl32 (le4 n ++ r) = (n, r) := by
  simp only [le4, rl32, readByte, List.cons_append, List.nil_append]
  rw [Prod.mk.injEq]
  exact ⟨by omega, rfl⟩

theorem rl64_le8 (n : Nat) (r : List Nat) (hn : n < 18446744073709551616) :
    rl64 (le8 n ++ r) = (n, r) := by
  have h1 : n % 4294967296 < 4294967296 := Nat.mod_lt _ (by norm_num)
  have h2 : n / 4294967296 < 4294967296 := by omega
  simp only [le8, rl64, List.append_assoc]
  rw [rl32_le4 _ _ h1, rl32_le4 _ _ h2]
  rw [Prod.mk.injEq]
  exact ⟨by omega, rfl⟩

theorem readStreams_zero (reg : Registries) (acc : List Track) (input : List Nat) :
    readStreams reg acc 0 input =
      (let (t, rest) := readByte input
       if t = 0 then .ok (acc, rest)
       else if 2 < t then .error .InvalidStreamType
       else .error .TooManyStreams) := rfl

theorem readStreams_succ (reg : Registries) (acc : List Track) (b : Nat)
    (input : List Nat) :
    readStreams reg acc (b + 1) input =
      (let (t, rest) := readByte input
       if t = 0 then .ok (acc, rest)
       else if 2 < t then .error .InvalidStreamType
       else
         match parseDescriptor reg t rest with
         | .error e => .error e
         | .ok (trk, r) => readStreams reg (acc ++ [trk]) b r) := rfl

theorem readStreams_terminator (reg : Registries) (acc : List Track) (b : Nat)
    (rest : List Nat) : readStreams reg acc b (0 :: rest) = .ok (acc, rest) := by
  cases b <;> rfl

theorem readStreams_bad_type (reg : Registries) (acc : List Track) (b : Nat)
    (t : Nat) (rest : List Nat) (h : 2 < t) :
    readStreams reg acc b (t :: rest) = .error .InvalidStreamType := by
  cases b
  · rw [readStreams_zero]
    simp only [readByte]
    rw [if_neg (by omega), if_pos h]
  · rw [readStreams_succ]
    simp only [readByte]
    rw [if_neg (by omega), if_pos h]

theorem readStreams_exhausted (reg : Registries) (acc : List Track) (t : Nat)
    (rest : List Nat) (h : t = 1 ∨ t = 2) :
    readStreams reg acc 0 (t :: rest) = .error .TooManyStreams := by
  rcases h with rfl | rfl <;> rfl

theorem read_header_unfold (reg : Registries) (table : List Nat) :
    rawmux_read_header reg (HEADER ++ 1 :: table) = readStreams reg [] 256 table :=
  rfl

theorem parseDescriptor_good (reg : Registries) (t : Nat) (input : List Nat)
    (trk : Track) (r : List Nat) (h : parseDescriptor reg t input = .ok (trk, r)) :
    GoodTrack reg trk := by
  unfold parseDescriptor at h
  repeat' split at h
  all_goals try exact Except.noConfusion h
  all_goals dsimp only at h
  all_goals repeat' split at h
  all_goals try exact Except.noConfusion h
  all_goals (injection h with h1; injection h1 with htrk hr; subst htrk)
  · exact ⟨by omega, rfl⟩
  · exact ⟨rfl, by assumption, rfl, rfl, rfl⟩

theorem readStreams_mem_good (reg : Registries) :
    ∀ (b : Nat) (acc : List Track) (input : List Nat) (tracks : List Track)
      (rest : List Nat),
      readStreams reg acc b input = .ok (tracks, rest) →
      ∀ trk ∈ tracks, trk ∈ acc ∨ GoodTrack reg trk := by
  intro b
  induction b with
  | zero =>
    intro acc input tracks rest h trk htrk
    rw [readStreams_zero] at h
    repeat' split at h
    all_goals try exact Except.noConfusion h
    injection h with h1
    injection h1 with h2 h3
    subst h2
    exact Or.inl htrk
  | succ b ih =>
    intro acc input tracks rest h trk htrk
    rw [readStreams_succ] at h
    repeat' split at h
    all_goals try exact Except.noConfusion h
    · injection h with h1
      injection h1 with h2 h3
      subst h2
      exact Or.inl htrk
    · rename_i heqpd
      rcases ih _ _ _ _ h trk htrk with hmem | hgood
      · rcases List.mem_append.mp hmem with hacc | hsing
        · exact Or.inl hacc
        · have heq : trk = _ := List.mem_singleton.mp hsing
          subst heq
          exact Or.inr (parseDescriptor_good _ _ _ _ _ heqpd)
      · exact Or.inr hgood

theorem readStreams_audio_step (acc : List Track) (b : Nat) (rest : List Nat) :
    readStreams testReg acc (b + 1) (audioDesc ++ rest)
      = readStreams testReg (acc ++ [audioTrk]) b rest := rfl

theorem repAudio_add (m n : Nat) :
    repAudio (m + n) = repAudio m ++ repAudio n := by
  induction m with
  | zero => simp [repAudio]
  | succ m ih =>
    have : m + 1 + n = (m + n) + 1 := by omega
    rw [this]
    simp [repAudio, ih]

theorem readStreams_repAudio :
    ∀ (n b : Nat) (acc : List Track) (rest : List Nat), n ≤ b →
      readStreams testReg acc b (repAudio n ++ rest)
        = readStreams testReg (acc ++ List.replicate n audioTrk) (b - n) rest := by
  intro n
  induction n with
  | zero => intro b acc rest _; simp [repAudio]
  | succ n ih =>
    intro b acc rest h
    cases b with
    | zero => omega
    | succ b =>
      have hd : repAudio (n + 1) ++ rest = audioDesc ++ (repAudio n ++ rest) := by
        simp [repAudio]
      rw [hd, readStreams_audio_step, ih b (acc ++ [audioTrk]) rest (by omega)]
      have harr : (acc ++ [audioTrk]) ++ List.replicate n audioTrk
          = acc ++ List.replicate (n + 1) audioTrk := by
        simp [List.replicate_succ]
      have hb : b + 1 - (n + 1) = b - n := by omega
      rw [harr, hb]

/-- C5: a buffer shorter than the 6-byte magic, or whose first 6 bytes
differ from the magic, probes to the minimum confidence 0; a buffer
whose first 6 bytes equal the magic probes to the maximum score. -/
theorem probe_min_max (buf : List Nat) :
    ((buf.length < 6 ∨ buf.take 6 ≠ HEADER) → rawmux_read_probe buf = 0) ∧
    (buf.take 6 = HEADER → rawmux_read_probe buf = AVPROBE_SCORE_MAX) := by
  have hl : HEADER.length = 6 := rfl
  constructor
  · intro h
    unfold rawmux_read_probe
    rw [hl, if_pos h]
  · intro h
    have hlen : 6 ≤ buf.length := by
      have h6 := congrArg List.length h
      simp only [List.length_take, hl] at h6
      omega
    unfold rawmux_read_probe
    rw [hl, if_neg]
    push_neg
    exact ⟨by omega, h⟩

/-- C5 witness: the exact magic probes to the maximum score. -/
theorem probe_min_max_witness :
    rawmux_read_probe HEADER = AVPROBE_SCORE_MAX :=
  (probe_min_max HEADER).2 rfl

/-- C6: whatever the 6 bytes in place of the magic are (the header
decoder skips them unconditionally), a version byte other than 1 makes
`rawmux_read_header` fail with `UnsupportedVersion` regardless of the
bytes that follow; the error result carries no track descriptors. -/
theorem read_header_unsupported_version (reg : Registries) (magic : List Nat)
    (v : Nat) (rest : List Nat) (hm : magic.length = 6) (hv : v ≠ 1) :
    rawmux_read_header reg (magic ++ v :: rest) = .error .UnsupportedVersion := by
  unfold rawmux_read_header
  have hdrop : (magic ++ v :: rest).drop HEADER.length = v :: rest := by
    have h6 : HEADER.length = magic.length := by rw [hm]; rfl
    rw [h6, List.drop_left]
  rw [hdrop]
  simp only [readByte]
  rw [if_pos hv]

/-- C6 witness: version byte 2 directly after the magic is rejected. -/
theorem read_header_unsupported_version_witness :
    rawmux_read_header testReg (HEADER ++ 2 :: ([] : List Nat))
      = .error .UnsupportedVersion :=
  read_header_unsupported_version testReg HEADER 2 [] rfl (by omega)

/-- C7: in each stream-table iteration the terminator check comes
first — a type byte of 0 ends the loop successfully whatever the
remaining bytes and whatever the remaining stream budget (even 0, when
the stream-count check would fail) — and a type byte above 2 fails with
`InvalidStreamType` before any descriptor is allocated, again for every
budget. -/
theorem stream_loop_terminator_precedence (reg : Registries) (acc : List Track)
    (b : Nat) (rest : List Nat) :
    readStreams reg acc b (0 :: rest) = .ok (acc, rest) ∧
    (∀ t, 2 < t → readStreams reg acc b (t :: rest) = .error .InvalidStreamType) :=
  ⟨readStreams_terminator reg acc b rest,
   fun t ht => readStreams_bad_type reg acc b t rest ht⟩

/-- C7 witness: type byte 3 with budget 0 is an `InvalidStreamType`
failure, not `TooManyStreams`; and a lone terminator ends the loop. -/
theorem stream_loop_terminator_precedence_witness :
    readStreams testReg [] 0 (3 :: ([] : List Nat)) = .error .InvalidStreamType :=
  (stream_loop_terminator_precedence testReg [] 0 []).2 3 (by omega)

/-- C2: a stream table of exactly 256 descriptors before the terminator
is accepted in full; one of 257 descriptors fails with
`TooManyStreams`; and in general, allocating a descriptor once 256
tracks exist (budget 0, i.e. new index 256 > 255) is exactly what
fails with `TooManyStreams`. -/
theorem stream_table_boundary_256 :
    rawmux_read_header testReg (HEADER ++ 1 :: (repAudio 256 ++ [0]))
        = .ok (List.replicate 256 audioTrk, []) ∧
    rawmux_read_header testReg (HEADER ++ 1 :: (repAudio 257 ++ [0]))
        = .error .TooManyStreams ∧
    (∀ (reg : Registries) (acc : List Track) (t : Nat) (rest : List Nat),
      t = 1 ∨ t = 2 →
      readStreams reg acc 0 (t :: rest) = .error .TooManyStreams) := by
  refine ⟨?_, ?_, fun reg acc t rest h => readStreams_exhausted reg acc t rest h⟩
  · rw [read_header_unfold, readStreams_repAudio 256 256 [] [0] le_rfl]
    simp only [Nat.sub_self, List.nil_append]
    exact readStreams_terminator _ _ _ _
  · rw [read_header_unfold]
    have h257 : repAudio 257 = repAudio 256 ++ repAudio 1 := repAudio_add 256 1
    have hsplit : repAudio 257 ++ [0] = repAudio 256 ++ (repAudio 1 ++ [0]) := by
      rw [h257, List.append_assoc]
    rw [hsplit, readStreams_repAudio 256 256 [] _ le_rfl]
    simp only [Nat.sub_self, List.nil_append]
    have hone : repAudio 1 ++ [0]
        = 2 :: ([115, 49, 54, 0] ++ le4 48000 ++ ([2] ++ [0])) := by
      simp [repAudio, audioDesc]
    rw [hone]
    exact readStreams_exhausted _ _ _ _ (Or.inr rfl)

/-- C2 witness: one more audio descriptor on a full 256-track catalog
(budget 0) fails with `TooManyStreams`. -/
theorem stream_table_boundary_256_witness :
    readStreams testReg [] 0 (2 :: ([] : List Nat)) = .error .TooManyStreams :=
  stream_table_boundary_256.2.2 testReg [] 2 [] (Or.inr rfl)

/-- C3: every video descriptor the stream-table loop appends has bit
rate `round(frame_size * 8 * den / num)` where `frame_size` is the
(nonnegative) minimal buffer size the registry computes for its pixel
format and dimensions; concretely, a 4-bytes-per-pixel format at 2x2
with time base 1/30 gives frame size 16 and bit rate 3840. -/
theorem video_derived_bit_rate :
    (∀ (reg : Registries) (b : Nat) (acc : List Track) (input : List Nat)
       (tracks : List Track) (rest : List Nat) (f num den w h : Nat)
       (br : Option Nat),
       readStreams reg acc b input = .ok (tracks, rest) →
       Track.video f num den w h br ∈ tracks →
       Track.video f num den w h br ∈ acc ∨
         (0 ≤ reg.imageBufSize f w h ∧
           br = avRescaleSpec (reg.imageBufSize f w h).toNat den num)) ∧
    testReg.imageBufSize 7 2 2 = 16 ∧
    avRescaleSpec 16 30 1 = some 3840 ∧
    rawmux_read_header testReg (HEADER ++ 1 :: (vidDesc 1 30 2 2 ++ [0]))
      = .ok ([.video 7 1 30 2 2 (some 3840)], []) := by
  refine ⟨?_, rfl, rfl, rfl⟩
  intro reg b acc input tracks rest f num den w h br hok hmem
  exact readStreams_mem_good reg b acc input tracks rest hok _ hmem

/-- C3 witness: the bit-rate equation instantiated on the decoded 2x2,
1/30 video track of the concrete example. -/
theorem video_derived_bit_rate_witness :
    Track.video 7 1 30 2 2 (some 3840) ∈ ([] : List Track) ∨
      (0 ≤ testReg.imageBufSize 7 2 2 ∧
        (some 3840 : Option Nat)
          = avRescaleSpec (testReg.imageBufSize 7 2 2).toNat 30 1) :=
  video_derived_bit_rate.1 testReg 256 [] (vidDesc 1 30 2 2 ++ [0])
    [Track.video 7 1 30 2 2 (some 3840)] [] 7 1 30 2 2 (some 3840) (by exact rfl)
    (List.mem_singleton.mpr rfl)

/-- C4: every audio descriptor the stream-table loop appends has block
align `bits_per_sample * channels / 8` (truncating natural division)
and time base `1 / sample_rate`; concretely, a 16-bits-per-sample codec
with 2 channels yields block align 4 and time base 1/48000. -/
theorem audio_block_align_time_base :
    (∀ (reg : Registries) (b : Nat) (acc : List Track) (input : List Nat)
       (tracks : List Track) (rest : List Nat) (cid sr ch bits ba tn td : Nat),
       readStreams reg acc b input = .ok (tracks, rest) →
       Track.audio cid sr ch bits ba tn td ∈ tracks →
       Track.audio cid sr ch bits ba tn td ∈ acc ∨
         (ba = bits * ch / 8 ∧ tn = 1 ∧ td = sr)) ∧
    rawmux_read_header testReg (HEADER ++ 1 :: (audioDesc ++ [0]))
      = .ok ([.audio 42 48000 2 16 4 1 48000], []) := by
  refine ⟨?_, rfl⟩
  intro reg b acc input tracks rest cid sr ch bits ba tn td hok hmem
  rcases readStreams_mem_good reg b acc input tracks rest hok _ hmem with hacc | hgood
  · exact Or.inl hacc
  · exact Or.inr ⟨hgood.2.2.1, hgood.2.2.2.1, hgood.2.2.2.2⟩

/-- C4 witness: the block-align equation instantiated on the decoded
16-bit stereo track of the concrete example. -/
theorem audio_block_align_time_base_witness :
    Track.audio 42 48000 2 16 4 1 48000 ∈ ([] : List Track) ∨
      ((4 : Nat) = 16 * 2 / 8 ∧ (1 : Nat) = 1 ∧ (48000 : Nat) = 48000) :=
  audio_block_align_time_base.1 testReg 256 [] (audioDesc ++ [0])
    [Track.audio 42 48000 2 16 4 1 48000] [] 42 48000 2 16 4 1 48000 (by exact rfl)
    (List.mem_singleton.mpr rfl)

/-- C1: a packet header declaring a (nonnegative `int`) payload size
larger than the remaining input makes `rawmux_read_packet` fail with
the short-read error; the error result carries no packet, so no
partially filled payload is returned. -/
theorem read_packet_short_read (s sz pts : Nat) (rest : List Nat)
    (hsz : sz < 2147483648) (hpts : pts < 18446744073709551616)
    (hshort : rest.length < sz) :
    rawmux_read_packet (s :: (le4 sz ++ (le8 pts ++ rest))) = .error .ShortRead := by
  unfold rawmux_read_packet
  simp only [readByte]
  rw [rl32_le4 _ _ (by omega), rl64_le8 _ _ hpts]
  dsimp only
  unfold toInt32
  rw [if_pos hsz]
  unfold avGetPacket
  rw [if_neg (by omega)]
  rw [if_pos (by omega)]

/-- C1 witness: declared size 7 with only 3 payload bytes available
fails with `ShortRead`. -/
theorem read_packet_short_read_witness :
    rawmux_read_packet (3 :: (le4 7 ++ (le8 5 ++ [10, 20, 30])))
      = .error .ShortRead :=
  read_packet_short_read 3 7 5 [10, 20, 30] (by omega) (by omega) (by simp)

/-- C8: a successful `rawmux_read_packet` returns the stream byte as
`stream_index` (any byte value, unvalidated against the catalog — the
catalog is not even an argument), the 64-bit timestamp as both `pts`
and `dts`, and exactly `size` payload bytes. -/
theorem read_packet_passthrough (s sz pts : Nat) (rest : List Nat)
    (hsz : sz < 2147483648) (hpts : pts < 18446744073709551616)
    (hlen : sz ≤ rest.length) :
    rawmux_read_packet (s :: (le4 sz ++ (le8 pts ++ rest))) =
      .ok ({ stream_index := s, payload := rest.take sz,
             pts := toInt64 pts, dts := toInt64 pts }, rest.drop sz) := by
  unfold rawmux_read_packet
  simp only [readByte]
  rw [rl32_le4 _ _ (by omega), rl64_le8 _ _ hpts]
  dsimp only
  unfold toInt32
  rw [if_pos hsz]
  unfold avGetPacket
  rw [if_neg (by omega)]
  rw [if_neg (by omega)]
  simp only [Int.toNat_natCast]

/-- C8 witness: stream index 200 — far beyond any catalog — still
succeeds, with `pts = dts` and the first 2 bytes as payload. -/
theorem read_packet_passthrough_witness :
    rawmux_read_packet (200 :: (le4 2 ++ (le8 5 ++ [10, 20, 30]))) =
      .ok ({ stream_index := 200, payload := [10, 20, 30].take 2,
             pts := toInt64 5, dts := toInt64 5 }, [10, 20, 30].drop 2) :=
  read_packet_passthrough 200 2 5 [10, 20, 30] (by omega) (by omega) (by simp)

/-- C9: a declared size of at least 2^31 is reinterpreted as a negative
signed 32-bit value, and `rawmux_read_packet` fails with the
negative-size error instead of attempting to read that payload. -/
theorem read_packet_size_sign_wrap (s sz pts : Nat) (rest : List Nat)
    (hlo : 2147483648 ≤ sz) (hhi : sz < 4294967296)
    (hpts : pts < 18446744073709551616) :
    toInt32 sz < 0 ∧
      rawmux_read_packet (s :: (le4 sz ++ (le8 pts ++ rest))) =
        .error .InvalidSize := by
  constructor
  · unfold toInt32
    rw [if_neg (by omega)]
    omega
  · unfold rawmux_read_packet
    simp only [readByte]
    rw [rl32_le4 _ _ hhi, rl64_le8 _ _ hpts]
    dsimp only
    unfold toInt32
    rw [if_neg (by omega)]
    unfold avGetPacket
    rw [if_pos (by omega)]

/-- C9 witness: declared size 2^31 wraps negative and fails, with 3
payload bytes present. -/
theorem read_packet_size_sign_wrap_witness :
    toInt32 2147483648 < 0 ∧
      rawmux_read_packet (3 :: (le4 2147483648 ++ (le8 5 ++ [10, 20, 30]))) =
        .error .InvalidSize :=
  read_packet_size_sign_wrap 3 2147483648 5 [10, 20, 30] (by omega) (by omega)
    (by omega)

/-- C10: the header decoder accepts a video descriptor whose time-base
numerator is 0 — it performs no validation of `time_base.num` (or
`.den`) — and the derived bit rate is then undefined (`none`); the
rescale is well-defined (`isSome`) exactly under the precondition
`num ≠ 0`. -/
theorem bit_rate_time_base_unguarded :
    rawmux_read_header testReg (HEADER ++ 1 :: (vidDesc 0 30 2 2 ++ [0]))
        = .ok ([.video 7 0 30 2 2 none], []) ∧
    (∀ size den : Nat, avRescaleSpec size den 0 = none) ∧
    (∀ size den num : Nat, num ≠ 0 → (avRescaleSpec size den num).isSome) := by
  refine ⟨rfl, fun size den => rfl, fun size den num h => ?_⟩
  unfold avRescaleSpec
  rw [if_neg h]
  rfl

/-- C10 witness: the rescale is defined at the concrete example's
nonzero numerator. -/
theorem bit_rate_time_base_unguarded_witness :
    (avRescaleSpec 16 30 1).isSome :=
  bit_rate_time_base_unguarded.2.2 16 30 1 (by omega)

end Rawmux
